import Mathlib

/-!
Shallow embedding of the EduEase Streamlit application core
(quiz option matching, notes-section extraction, JSON block parsing,
Graphviz block styling, keyword highlighting, session/history handling),
together with theorems settling the specification claims.

Strings are modelled as lists of characters at the core level with
thin `String` wrappers.  Test inputs are ASCII, for which the modelled
Python string primitives (strip, upper, split, substring test) agree
with CPython.
-/

namespace EduEase

/-- Python whitespace characters (the ASCII subset used by default
`str.strip`, `str.split`, and the regex class for whitespace). -/
def isPyWs (c : Char) : Bool :=
  c = ' ' || c = '\t' || c = '\n' || c = '\r' || c = '\x0b' || c = '\x0c'

/-- Python `str.strip()` on the left: drop leading whitespace. -/
def pyStripL (l : List Char) : List Char := l.dropWhile isPyWs

/-- Python `str.strip()`: drop leading and trailing whitespace. -/
def pyStrip (l : List Char) : List Char :=
  ((l.dropWhile isPyWs).reverse.dropWhile isPyWs).reverse

/-- Python `str.upper()` (ASCII range). -/
def pyUpper (l : List Char) : List Char := l.map Char.toUpper

/-- Boolean test: the first list is an initial segment of the second. -/
def prefixB : List Char → List Char → Bool
  | [], _ => true
  | _ :: _, [] => false
  | a :: as, b :: bs => a = b && prefixB as bs

/-- Boolean test: the first list occurs as a contiguous segment of the
second (Python `needle in haystack`; the empty needle always occurs). -/
def infixB (needle : List Char) : List Char → Bool
  | [] => prefixB needle []
  | c :: t => prefixB needle (c :: t) || infixB needle t

/-- Python `str.split()` with no argument: whitespace-separated words,
empty words discarded.  The accumulator holds the current word reversed. -/
def pyWordsAux : List Char → List Char → List (List Char)
  | [], acc => if acc = [] then [] else [acc.reverse]
  | c :: t, acc =>
    if isPyWs c then
      if acc = [] then pyWordsAux t [] else acc.reverse :: pyWordsAux t []
    else pyWordsAux t (c :: acc)

/-- Python `str.split()` with no argument. -/
def pyWords (l : List Char) : List (List Char) := pyWordsAux l []

/-- Remove duplicates keeping first occurrences (used to model the size
of a Python `set` intersection). -/
def dedupAux (seen : List (List Char)) : List (List Char) → List (List Char)
  | [] => []
  | x :: t => if seen.contains x then dedupAux seen t else x :: dedupAux (x :: seen) t

/-- Distinct elements of a word list, first occurrences kept. -/
def dedup (l : List (List Char)) : List (List Char) := dedupAux [] l

/-- `len(set(a.split()) & set(b.split()))`: the number of distinct words
common to both strings. -/
def sharedWordCount (a b : List Char) : Nat :=
  ((dedup (pyWords a)).filter (fun w => (pyWords b).contains w)).length

namespace QuizHelpers

/-- Separator characters accepted after an option label letter:
the regex class of a right parenthesis, a period, or whitespace. -/
def isLabelSep (c : Char) : Bool := c = ')' || c = '.' || isPyWs c

/-- Removal of a leading option label, the regex substitution that
deletes one capital letter followed by one or more separator characters
(greedy), leaving the string unchanged when the pattern is absent. -/
def stripLabel (l : List Char) : List Char :=
  match l with
  | c :: c2 :: rest =>
    if ('A' ≤ c && c ≤ 'Z') && isLabelSep c2 then rest.dropWhile isLabelSep
    else l
  | _ => l

/-- The acceptance test of strategy 2 for one option: the option is
truthy (non-empty) and its cleaned content (strip, upper, label
removal, strip) equals, contains or is contained in the cleaned
answer. -/
def strat2Hit (caClean o : List Char) : Bool :=
  o ≠ [] &&
    (let content := pyStrip (stripLabel (pyUpper (pyStrip o)))
     caClean = content || infixB caClean content || infixB content caClean)

/-- Strategy 2 of `find_correct_option_index`: scan options in order
(carrying the running index) and return the index of the first option
passing the acceptance test. -/
def strat2 (caClean : List Char) : List (List Char) → Nat → Option Nat
  | [], _ => none
  | o :: rest, i =>
    if strat2Hit caClean o then some i else strat2 caClean rest (i + 1)

/-- Cleaned option text as used by strategy 3: strip, upper, label
removal (no final strip in the source). -/
def strat3Content (o : List Char) : List Char := stripLabel (pyUpper (pyStrip o))

/-- Shared-word score of one option against the cleaned answer. -/
def strat3Score (caClean o : List Char) : Nat :=
  sharedWordCount caClean (strat3Content o)

/-- Strategy 3 of `find_correct_option_index`: best shared-word count,
strict improvement required, falsy options skipped; at the end the best
index is returned only when the best score is positive. -/
def strat3 (caClean : List Char) :
    List (List Char) → Nat → Option Nat → Nat → Option Nat
  | [], _, bestIdx, bestScore => if bestScore > 0 then bestIdx else none
  | o :: rest, i, bestIdx, bestScore =>
    if o ≠ [] then
      let score := strat3Score caClean o
      if score > bestScore then strat3 caClean rest (i + 1) (some i) score
      else strat3 caClean rest (i + 1) bestIdx bestScore
    else strat3 caClean rest (i + 1) bestIdx bestScore

/-- Strategy 1 of `find_correct_option_index`: when the cleaned answer
is one character between A and Z, its zero-based alphabet offset. -/
def letterHit (caClean : List Char) : Option Nat :=
  match caClean with
  | [c] => if 'A' ≤ c && c ≤ 'Z' then some (c.toNat - 'A'.toNat) else none
  | _ => none

/-- Core of `QuizHelpers.find_correct_option_index` on character lists:
falsy-argument guard, then the single-letter strategy, then content
similarity, then the best-partial-match fallback. -/
def findCore (options : List (List Char)) (correct_answer : List Char) : Option Nat :=
  if options = [] || correct_answer = [] then none
  else
    let caClean := pyUpper (pyStrip correct_answer)
    match letterHit caClean with
    | some i => some i
    | none =>
      match strat2 caClean options 0 with
      | some i => some i
      | none => strat3 caClean options 0 none 0

/-- `QuizHelpers.find_correct_option_index` from `src/utils/quiz_helpers.py`. -/
def find_correct_option_index (options : List String) (correct_answer : String) :
    Option Nat :=
  findCore (options.map String.toList) correct_answer.toList

end QuizHelpers

/-!
A small backtracking matcher for the three fixed regular expressions of
the source, with the exploration order of the CPython `re` engine:
candidate start positions left to right; a greedy whitespace star tries
the longest run first; lazy gaps and lazy captures try the shortest
extension first; nested alternatives are explored lexicographically with
the outermost quantifier most significant.
-/

/-- Drop a literal (case-sensitive), or fail. -/
def stripLit : List Char → List Char → Option (List Char)
  | [], l => some l
  | _ :: _, [] => none
  | p :: ps, c :: cs => if p = c then stripLit ps cs else none

/-- Drop a literal case-insensitively (the `re.IGNORECASE` flag). -/
def stripLitCI : List Char → List Char → Option (List Char)
  | [], l => some l
  | _ :: _, [] => none
  | p :: ps, c :: cs => if p.toUpper = c.toUpper then stripLitCI ps cs else none

/-- Candidate remainders for a greedy whitespace star: the suffixes
obtained by removing a whitespace prefix, longest removal first. -/
def wsDropsGreedy : List Char → List (List Char)
  | [] => [[]]
  | c :: t => if isPyWs c then wsDropsGreedy t ++ [c :: t] else [c :: t]

/-- Candidate remainders for a lazy any-character gap: all suffixes,
shortest drop first. -/
def suffixesLazy : List Char → List (List Char)
  | [] => [[]]
  | c :: t => (c :: t) :: suffixesLazy t

/-- Candidate splits for a lazy one-or-more capture: non-empty prefixes
paired with their remainders, shortest prefix first. -/
def capSplitsLazy : List Char → List (List Char × List Char)
  | [] => []
  | c :: t =>
    ([c], t) :: (capSplitsLazy t).map (fun (pr : List Char × List Char) => (c :: pr.1, pr.2))

/-- Candidate splits for a lazy zero-or-more capture. -/
def capSplits0Lazy (l : List Char) : List (List Char × List Char) :=
  ([], l) :: capSplitsLazy l

/-- The summary-section pattern of `ai_service.py` at one start
position: a double hash, whitespace, an optional case-insensitive
word `Detailed` followed by one whitespace character, the word
`Summary`, whitespace, a lazy gap up to a newline, then the lazy
capture of group two ending at a lookahead for a double hash.
Returns the captured group two. -/
def summaryMatchAt (l : List Char) : Option (List Char) :=
  (stripLitCI "##".toList l).bind fun r1 =>
  (wsDropsGreedy r1).findSome? fun r2 =>
  (((stripLitCI "Detailed".toList r2).bind fun rd =>
      match rd with
      | c :: t => if isPyWs c then some [t, r2] else some [r2]
      | [] => some [r2]).getD [r2]).findSome? fun r3 =>
  (stripLitCI "Summary".toList r3).bind fun r4 =>
  (wsDropsGreedy r4).findSome? fun r5 =>
  (suffixesLazy r5).findSome? fun r6 =>
  (match r6 with | '\n' :: r7 => some r7 | _ => none).bind fun r7 =>
  (capSplits0Lazy r7).findSome? fun (pr : List Char × List Char) =>
  if (stripLitCI "##".toList pr.2).isSome then some pr.1 else none

/-- `re.search` for the summary-section pattern: leftmost start
position, returning captured group two. -/
def searchSummary (text : List Char) : Option (List Char) :=
  (suffixesLazy text).findSome? summaryMatchAt

/-- The characters with special meaning in a regular-expression
pattern; a key containing none of them is interpolated into the
pattern of `parse_json_from_notes` as plain literal text. -/
def regexSpecialChars : List Char :=
  ['\\', '.', '^', '$', '*', '+', '?', '\x7b', '\x7d', '[', ']', '(', ')', '|']

/-- The key contains no regex-special character.  The two section keys
the application uses (the MCQ and flashcard headings) are plain. -/
def regexPlainKey (key : List Char) : Bool :=
  key.all (fun c => !regexSpecialChars.contains c)

/-- The pattern source text that `parse_json_from_notes` assembles by
interpolating the section key into its f-string. -/
def jsonBlockPattern (key : List Char) : List Char :=
  "##\\s*".toList ++
    (key ++ "[\\s\\S]*?\x60\x60\x60json\\s*([\\s\\S]+?)\\s*\x60\x60\x60".toList)

/-- The group and character-class well-formedness scan of pattern
compilation, one character per step: `depth` counts open groups,
`mode` is zero outside a class, one right after a class opening (where
a closing bracket is still a literal member), two inside a class, and
`esc` records that the previous character was an unconsumed backslash.
A trailing backslash, a closing parenthesis with no open group, an
unclosed group or an unterminated class fails the scan; CPython
pattern compilation raises on each of these, so a failing scan refutes
compilation, and on patterns built from a plain key the scan succeeds
exactly as CPython compilation does. -/
def regexScanOk : List Char → Nat → Nat → Bool → Bool
  | [], depth, mode, esc => !esc && (depth = 0 && mode = 0)
  | c :: rest, depth, mode, esc =>
    if esc then regexScanOk rest depth (if mode = 1 then 2 else mode) false
    else if c = '\\' then regexScanOk rest depth mode true
    else if mode = 0 then
      if c = '[' then regexScanOk rest depth 1 false
      else if c = '(' then regexScanOk rest (depth + 1) 0 false
      else if c = ')' then
        (if depth = 0 then false else regexScanOk rest (depth - 1) 0 false)
      else regexScanOk rest depth 0 false
    else if mode = 1 then
      if c = '^' then regexScanOk rest depth 1 false
      else regexScanOk rest depth 2 false
    else
      if c = ']' then regexScanOk rest depth 0 false
      else regexScanOk rest depth 2 false

/-- The fenced-JSON pattern of `parse_json_from_notes` at one start
position: a double hash, whitespace, the section key, a lazy gap, a
fence opening of three backticks and the word json, whitespace, the
lazy non-empty capture, whitespace, a closing three-backtick fence
(everything case-insensitive).  Returns the capture.  The key is
matched as literal text, which is the behaviour of the compiled
pattern exactly when the key is plain (`regexPlainKey`); keys with
regex-special characters alter the pattern itself. -/
def jsonBlockMatchAt (key : List Char) (l : List Char) : Option (List Char) :=
  (stripLitCI "##".toList l).bind fun r1 =>
  (wsDropsGreedy r1).findSome? fun r2 =>
  (stripLitCI key r2).bind fun r3 =>
  (suffixesLazy r3).findSome? fun r4 =>
  (stripLitCI "\x60\x60\x60json".toList r4).bind fun r5 =>
  (wsDropsGreedy r5).findSome? fun r6 =>
  (capSplitsLazy r6).findSome? fun (pr : List Char × List Char) =>
  (wsDropsGreedy pr.2).findSome? fun r8 =>
  (stripLitCI "\x60\x60\x60".toList r8).map fun _ => pr.1

/-- `re.search` for the fenced-JSON pattern of a given section key. -/
def searchJsonBlock (key : List Char) (text : List Char) : Option (List Char) :=
  (suffixesLazy text).findSome? (jsonBlockMatchAt key)

/-- The fenced-dot pattern of `text_processing.py` at one start
position (case-sensitive): a three-backtick fence with the word dot,
whitespace, the lazy non-empty capture, whitespace, a closing fence. -/
def dotMatchAt (l : List Char) : Option (List Char) :=
  (stripLit "\x60\x60\x60dot".toList l).bind fun r1 =>
  (wsDropsGreedy r1).findSome? fun r2 =>
  (capSplitsLazy r2).findSome? fun (pr : List Char × List Char) =>
  (wsDropsGreedy pr.2).findSome? fun r4 =>
  (stripLit "\x60\x60\x60".toList r4).map fun _ => pr.1

/-- `re.search` for the fenced-dot pattern. -/
def searchDot (text : List Char) : Option (List Char) :=
  (suffixesLazy text).findSome? dotMatchAt

/-!
A model of `json.loads` sufficient for the documents the application
parses: values are null, booleans, numbers (kept as their raw lexeme),
strings with the standard escapes, arrays and objects.  Strict-mode
decoding: trailing commas, raw control characters in strings and
trailing data are errors.  Object member lists keep source order.
-/

/-- JSON values; numbers keep their raw lexeme. -/
inductive Json where
  | null : Json
  | bool (b : Bool) : Json
  | num (raw : String) : Json
  | str (s : String) : Json
  | arr (xs : List Json) : Json
  | obj (kvs : List (String × Json)) : Json

/-- JSON inter-token whitespace (space, tab, newline, carriage return). -/
def isJsonWs (c : Char) : Bool := c = ' ' || c = '\t' || c = '\n' || c = '\r'

/-- Skip JSON whitespace. -/
def skipJsonWs (l : List Char) : List Char := l.dropWhile isJsonWs

/-- Value of one hexadecimal digit (either case), via code points. -/
def hexDigitValue (c : Char) : Option Nat :=
  let n := c.toNat
  if 48 ≤ n && n ≤ 57 then some (n - 48)
  else if 97 ≤ n && n ≤ 102 then some (n - 87)
  else if 65 ≤ n && n ≤ 70 then some (n - 55)
  else none

/-- The character denoted by a one-letter JSON escape. -/
def jsonEscapeChar (e : Char) : Option Char :=
  [('"', '"'), ('\\', '\\'), ('/', '/'), ('b', '\x08'), ('f', '\x0c'),
   ('n', '\n'), ('r', '\r'), ('t', '\t')].lookup e

/-- Decode a four-hex-digit escape body into a character. -/
def jsonHexQuad (a b c d : Char) : Option Char := do
  let va ← hexDigitValue a
  let vb ← hexDigitValue b
  let vc ← hexDigitValue c
  let vd ← hexDigitValue d
  pure (Char.ofNat (va * 4096 + vb * 256 + vc * 16 + vd))

/-- Parse the body of a JSON string after the opening quote, handling
escapes; strict mode rejects raw control characters. -/
def parseJsonStr : List Char → Except String (List Char × List Char)
  | [] => .error "unterminated string"
  | '"' :: r => .ok ([], r)
  | '\\' :: 'u' :: a :: b :: c :: d :: r =>
    match jsonHexQuad a b c d with
    | some ch =>
      (parseJsonStr r).map fun (pr : List Char × List Char) => (ch :: pr.1, pr.2)
    | none => .error "invalid unicode escape"
  | '\\' :: e :: r =>
    match jsonEscapeChar e with
    | some ch =>
      (parseJsonStr r).map fun (pr : List Char × List Char) => (ch :: pr.1, pr.2)
    | none => .error "invalid escape"
  | c :: r =>
    if c.toNat < 32 then .error "invalid control character"
    else (parseJsonStr r).map fun (pr : List Char × List Char) => (c :: pr.1, pr.2)

/-- One or more decimal digits, returned with the remainder. -/
def takeDigits1 (l : List Char) : Option (List Char × List Char) :=
  let ds := l.takeWhile (fun c => '0' ≤ c && c ≤ '9')
  if ds = [] then none else some (ds, l.drop ds.length)

/-- Parse a JSON number lexeme (minus sign, integer part, optional
fraction, optional exponent), returning the raw lexeme. -/
def parseJsonNum (l : List Char) : Except String (List Char × List Char) :=
  let (sign, r1) := match l with | '-' :: t => (['-'], t) | _ => (([] : List Char), l)
  match takeDigits1 r1 with
  | none => .error "expecting value"
  | some (ip, r2) =>
    if ip.length > 1 && ip.headD '0' = '0' then .error "leading zero"
    else
      let (fp, r3) :=
        match r2 with
        | '.' :: t =>
          match takeDigits1 t with
          | some (ds, r) => ('.' :: ds, r)
          | none => (([] : List Char), r2)
        | _ => (([] : List Char), r2)
      if fp = [] && (match r2 with | '.' :: _ => true | _ => false) then
        .error "bad fraction"
      else
        let (ep, r4) :=
          match r3 with
          | e :: t =>
            if e = 'e' || e = 'E' then
              let (es, t2) := match t with
                | s :: t2 => if s = '+' || s = '-' then ([s], t2) else (([] : List Char), t)
                | [] => (([] : List Char), t)
              match takeDigits1 t2 with
              | some (ds, r) => (e :: (es ++ ds), r)
              | none => (([] : List Char), r3)
            else (([] : List Char), r3)
          | [] => (([] : List Char), r3)
        .ok (sign ++ ip ++ fp ++ ep, r4)

/-- Collect parsed object members into the dictionary the decoder
builds: a repeated key keeps its first position and takes the last
value. -/
def objInsert (kvs : List (String × Json)) (k : String) (v : Json) : List (String × Json) :=
  match kvs with
  | [] => [(k, v)]
  | (k0, v0) :: rest => if k0 = k then (k0, v) :: rest else (k0, v0) :: objInsert rest k v

mutual

/-- Parse one JSON value (leading whitespace allowed); the decoder
accepts the non-standard constants NaN, Infinity and -Infinity by
default, recorded here by their lexemes. -/
def parseJsonValue : Nat → List Char → Except String (Json × List Char)
  | 0, _ => .error "out of fuel"
  | fuel + 1, l =>
    match skipJsonWs l with
    | [] => .error "expecting value"
    | '"' :: r => (parseJsonStr r).map fun (pr : List Char × List Char) => (.str (String.mk pr.1), pr.2)
    | '[' :: r =>
      (match skipJsonWs r with
       | ']' :: r2 => .ok (.arr [], r2)
       | _ => (parseJsonElems fuel r).map fun (pr : List Json × List Char) => (.arr pr.1, pr.2))
    | '{' :: r =>
      (match skipJsonWs r with
       | '}' :: r2 => .ok (.obj [], r2)
       | _ =>
         (parseJsonMembers fuel r).map fun (pr : List (String × Json) × List Char) =>
           (.obj (pr.1.foldl (fun acc kv => objInsert acc kv.1 kv.2) []), pr.2))
    | 'n' :: r => (stripLit "ull".toList r).elim (.error "expecting value") fun r2 => .ok (.null, r2)
    | 't' :: r => (stripLit "rue".toList r).elim (.error "expecting value") fun r2 => .ok (.bool true, r2)
    | 'f' :: r => (stripLit "alse".toList r).elim (.error "expecting value") fun r2 => .ok (.bool false, r2)
    | 'N' :: r => (stripLit "aN".toList r).elim (.error "expecting value") fun r2 => .ok (.num "NaN", r2)
    | 'I' :: r =>
      (stripLit "nfinity".toList r).elim (.error "expecting value") fun r2 =>
        .ok (.num "Infinity", r2)
    | '-' :: 'I' :: r =>
      (stripLit "nfinity".toList r).elim (.error "expecting value") fun r2 =>
        .ok (.num "-Infinity", r2)
    | l2 => (parseJsonNum l2).map fun (pr : List Char × List Char) => (.num (String.mk pr.1), pr.2)

/-- Parse the non-empty element list of an array up to the closing
bracket (a comma must be followed by a value: trailing commas fail). -/
def parseJsonElems : Nat → List Char → Except String (List Json × List Char)
  | 0, _ => .error "out of fuel"
  | fuel + 1, l => do
    let (v, r) ← parseJsonValue fuel l
    match skipJsonWs r with
    | ',' :: r2 =>
      let (vs, r3) ← parseJsonElems fuel r2
      .ok (v :: vs, r3)
    | ']' :: r2 => .ok ([v], r2)
    | _ => .error "expecting comma or end of array"

/-- Parse the non-empty member list of an object up to the closing
brace; member keys are strings followed by a colon and a value. -/
def parseJsonMembers : Nat → List Char → Except String (List (String × Json) × List Char)
  | 0, _ => .error "out of fuel"
  | fuel + 1, l =>
    match skipJsonWs l with
    | '"' :: r => do
      let (k, r2) ← parseJsonStr r
      match skipJsonWs r2 with
      | ':' :: r3 => do
        let (v, r4) ← parseJsonValue fuel r3
        match skipJsonWs r4 with
        | ',' :: r5 =>
          let (ms, r6) ← parseJsonMembers fuel r5
          .ok ((String.mk k, v) :: ms, r6)
        | '}' :: r5 => .ok ([(String.mk k, v)], r5)
        | _ => .error "expecting comma or end of object"
      | _ => .error "expecting colon"
    | _ => .error "expecting property name"

end

/-- `json.loads`: parse one value, allow surrounding whitespace,
reject trailing data. -/
def json_loads (s : String) : Except String Json :=
  match parseJsonValue (2 * s.length + 2) s.toList with
  | .ok (v, rest) => if skipJsonWs rest = [] then .ok v else .error "extra data"
  | .error e => .error e

namespace AIService

/-- `AIService.parse_json_from_notes` from `src/services/ai_service.py`:
compile the pattern assembled from the section key (nothing catches a
compilation error, so it propagates to the caller), search for the
fenced JSON block, and return the decoded value, or the empty sequence
on a missing block or a decode failure.  Compilation is modelled by
the well-formedness scan, exact for plain keys (success) and for keys
breaking group or class structure (failure); the literal-text search
is exact for plain keys. -/
def parse_json_from_notes (notes_text key : String) : Except String Json :=
  if regexScanOk (jsonBlockPattern key.toList) 0 0 false then
    .ok
      (match searchJsonBlock key.toList notes_text.toList with
       | none => .arr []
       | some cap =>
         match json_loads (String.mk cap) with
         | .ok v => v
         | .error _ => .arr [])
  else .error "re.error: unbalanced pattern"

/-- The fallback topic string of `extract_topic_from_summary`. -/
def fallbackTopic : String := "General Educational Topic"

/-- `AIService.extract_topic_from_summary`: the deterministic skeleton,
parameterised by the generative-model call `aiTopic` made on the
extracted summary text (`none` models an API failure). -/
def extract_topic_from_summary (aiTopic : String → Option String)
    (notes_text : String) : Option String :=
  match searchSummary notes_text.toList with
  | none => some fallbackTopic
  | some cap =>
    if pyStrip cap = [] then some fallbackTopic
    else aiTopic (String.mk (pyStrip cap))

/-- `AIService.generate_audio_summary`: the deterministic skeleton,
parameterised by the text-to-speech call (`none` models a failure). -/
def generate_audio_summary (tts : String → Option String)
    (notes_text : String) : Option String :=
  match searchSummary notes_text.toList with
  | none => none
  | some cap => tts (String.mk (pyStrip cap))

/-- The methods defined on the `AIService` class in
`src/services/ai_service.py`; attribute lookup on an `AIService`
instance succeeds exactly for these names. -/
def methodNames : List String :=
  ["__init__", "generate_notes", "extract_topic_from_summary",
   "generate_audio_summary", "parse_json_from_notes"]

end AIService

namespace TextProcessor

/-- The fixed style preamble injected by `parse_graphviz`. -/
def gvStyling : String :=
  "bgcolor=\"transparent\"; node [style=\"filled\", shape=\"box\", fillcolor=\"#AEC6CF\", fontcolor=\"#121212\", color=\"#FFFFFF\", penwidth=2, fontname=\"Inter\"]; edge [color=\"#FFFFFF\", fontname=\"Inter\"];"

/-- `str.replace(old, new, 1)` for a one-character target: replace the
first opening brace by the replacement list. -/
def replaceFirstBrace (repl : List Char) : List Char → List Char
  | [] => []
  | c :: t => if c = '\x7b' then repl ++ t else c :: replaceFirstBrace repl t

/-- The wrapper applied when the captured content does not start with
the word digraph: the content inside an enclosing brace pair after the
header digraph G. -/
def wrapDigraph (content : List Char) : List Char :=
  "digraph G \x7b ".toList ++ content ++ " \x7d".toList

/-- `TextProcessor.parse_graphviz` from `src/utils/text_processing.py`. -/
def parse_graphviz (notes_text : String) : Option String :=
  match searchDot notes_text.toList with
  | none => none
  | some cap =>
    let content := pyStrip cap
    let content2 :=
      if prefixB "digraph".toList content then content else wrapDigraph content
    some (String.mk (replaceFirstBrace ('\x7b' :: ' ' :: gvStyling.toList) content2))

/-- The fixed six-colour palette of `highlight_keywords`. -/
def hlColors : List String :=
  ["#FFD6A5", "#FDFFB6", "#CAFFBF", "#9BF6FF", "#A9DEF9", "#FFC0CB"]

/-- Colour selection: the palette entry at the hash of the keyword
modulo the palette size (the hash function is a parameter of the model;
CPython string hashing is fixed within one process). -/
def colorFor (h : String → Int) (kw : String) : String :=
  hlColors.getD ((h kw) % 6).toNat ""

/-- The styled inline wrapper substituted for a matched keyword. -/
def mkSpan (color keyword : String) : String :=
  "<span style=\"background-color: " ++ color ++
    "; color: #121212; padding: 3px 6px; border-radius: 5px; font-weight: 600;\">" ++
    keyword ++ "</span>"

/-- The lazy inner group of the marker pattern: the shortest run of
characters other than a newline up to a closing double at-sign,
returning the inner text and the remainder, or nothing when no closing
marker exists on the line. -/
def findInner : List Char → Option (List Char × List Char)
  | [] => none
  | '@' :: '@' :: rest => some ([], rest)
  | c :: rest =>
    if c = '\n' then none
    else (findInner rest).map fun (pr : List Char × List Char) => (c :: pr.1, pr.2)

/-- The substitution scan of `re.sub` for the marker pattern: at a
double at-sign, if the lazy inner group closes, emit the styled span
and continue after the match; otherwise, and on ordinary characters,
keep one character and move on.  Fuel bounds the recursion; every
recursive call consumes at least one character, so an initial fuel of
the input length plus one never runs out. -/
def hlScanF (h : String → Int) : Nat → List Char → List Char
  | 0, l => l
  | _ + 1, [] => []
  | fuel + 1, '@' :: '@' :: rest =>
    match findInner rest with
    | some (kw, rest2) =>
      (mkSpan (colorFor h (String.mk kw)) (String.mk kw)).toList ++ hlScanF h fuel rest2
    | none => '@' :: hlScanF h fuel ('@' :: rest)
  | fuel + 1, c :: rest => c :: hlScanF h fuel rest

/-- `TextProcessor.highlight_keywords` from `src/utils/text_processing.py`,
parameterised by the process-wide string hash function `h`. -/
def highlight_keywords (h : String → Int) (text : String) : String :=
  String.mk (hlScanF h (text.toList.length + 1) text.toList)

end TextProcessor

/-!
The session state of the application (`st.session_state`), the
`SessionManager`, and the notes pipeline of `app.py`.  The generated
notes text, the topic call and the text-to-speech call involve external
services and are parameters of the model; everything downstream of them
is embedded from the source.
-/

/-- One entry of `notes_history` as assembled in
`_process_and_store_notes` (`app.py`). -/
structure HistoryEntry where
  video_url : String
  topic_title : Option String
  notes : String
  mcq_questions : Json
  flashcard_questions : Json
  summary_audio_data : Option String
  roadmap_recommendations : Option (List String)
  learning_level : String

/-- The session state.  Falsy initial values (`None` or the empty
string/list) are modelled by the empty value of each field type. -/
structure AppState where
  user_name : Option String := none
  notes_history : List HistoryEntry := []
  notes : String := ""
  video_url : String := ""
  summary_audio_data : Option String := none
  mcq_questions : Json := .arr []
  flashcard_questions : Json := .arr []
  mcq_current_index : Nat := 0
  flashcard_current_index : Nat := 0
  mcq_answer_submitted : Bool := false
  mcq_user_answer : Option String := none
  processing : Bool := false
  learning_level : String := "Beginner"
  roadmap_recommendations : Option (List String) := none
  topic_title : Option String := none
  flowchart_description : Option String := none

/-- `SessionManager.reset_session` from `src/utils/session_manager.py`:
reassign exactly the keys of `DEFAULT_STATE` to their defaults.  The
keys `user_name`, `notes_history` and `flowchart_description` are not
in `DEFAULT_STATE` and keep their values. -/
def reset_session (st : AppState) : AppState :=
  { st with
    notes := ""
    video_url := ""
    summary_audio_data := none
    mcq_questions := .arr []
    flashcard_questions := .arr []
    mcq_current_index := 0
    flashcard_current_index := 0
    mcq_answer_submitted := false
    mcq_user_answer := none
    processing := false
    learning_level := "Beginner"
    roadmap_recommendations := none
    topic_title := none }

/-- The history entry built from the session in
`_process_and_store_notes`: roadmap reset to none and level reset to
Beginner for history items. -/
def mkHistoryEntry (st : AppState) : HistoryEntry :=
  { video_url := st.video_url
    topic_title := st.topic_title
    notes := st.notes
    mcq_questions := st.mcq_questions
    flashcard_questions := st.flashcard_questions
    summary_audio_data := st.summary_audio_data
    roadmap_recommendations := none
    learning_level := "Beginner" }

/-- The history block of `_process_and_store_notes` (`app.py`,
lines 273 to 291): when no existing entry carries the session video
URL, insert the new entry at the front; otherwise leave the history
unchanged. -/
def insertHistoryStep (st : AppState) : AppState :=
  if st.notes_history.any (fun e => e.video_url = st.video_url) then st
  else { st with notes_history := mkHistoryEntry st :: st.notes_history }

/-- `_process_and_store_notes` from `app.py`: store the notes and the
derived content in the session, then look up the attribute
`parse_flowchart_description` on the `AIService` instance.  The class
defines no such method, so the lookup raises; the raise is modelled by
the error branch of `Except`, carrying the partially mutated session
state that the raised call leaves behind. -/
def _process_and_store_notes (aiTopic tts : String → Option String)
    (notes_text : String) (st : AppState) : Except AppState AppState :=
  let st1 := { st with notes := notes_text }
  match AIService.parse_json_from_notes notes_text "MCQ Quiz" with
  | .error _ => Except.error st1
  | .ok mcq =>
    let st2 := { st1 with mcq_questions := mcq }
    match AIService.parse_json_from_notes notes_text "Flashcard Review" with
    | .error _ => Except.error st2
    | .ok fc =>
      let st3 := { st2 with
        flashcard_questions := fc
        topic_title := AIService.extract_topic_from_summary aiTopic notes_text
        summary_audio_data := AIService.generate_audio_summary tts notes_text }
      if AIService.methodNames.contains "parse_flowchart_description" then
        Except.ok (insertHistoryStep st3)
      else Except.error st3

/-- The external calls of the processing pipeline; `none` models a
falsy result (and, for the final store step, its raise is built in). -/
structure PipelineEnv where
  extract_audio : String → Option String
  transcribe_audio : String → Option String
  generate_notes : String → Option String
  aiTopic : String → Option String
  tts : String → Option String

/-- `_handle_processing` from `app.py`: run the pipeline steps; on any
failure show an error and reset the session; in all cases clear the
processing flag.  Returns the new state and the displayed error. -/
def _handle_processing (env : PipelineEnv) (st : AppState) : AppState × Option String :=
  match env.extract_audio st.video_url with
  | none =>
    ({ reset_session st with processing := false },
      some "Failed to extract audio from the video.")
  | some audio_path =>
    match env.transcribe_audio audio_path with
    | none =>
      ({ reset_session st with processing := false },
        some "Audio transcription failed or produced no text.")
    | some transcript =>
      match env.generate_notes transcript with
      | none =>
        ({ reset_session st with processing := false },
          some "The AI model failed to generate notes.")
      | some notes_text =>
        match _process_and_store_notes env.aiTopic env.tts notes_text st with
        | .ok st2 => ({ st2 with processing := false }, none)
        | .error stPartial =>
          ({ reset_session stPartial with processing := false },
            some "AttributeError: parse_flowchart_description")

/-- One quiz question record as consumed by `render_mcq_quiz`
(`q_data.get` defaults applied: missing options give the empty list,
a missing correct answer gives the empty string). -/
structure McqQuestion where
  question : String
  options : List String
  correct_answer : String
  hint : Option String

/-- The session fields read by the quiz component. -/
structure QuizSession where
  mcq_current_index : Nat
  mcq_answer_submitted : Bool
  mcq_user_answer : Option String

/-- What `QuizComponent.render_mcq_quiz` displays for the current
question: the completion screen, a malformed-question error, an
indeterminate-answer error, the answer-selection radio view, or the
results view with the list of option indices marked correct. -/
inductive McqRender where
  | completedQuiz : McqRender
  | malformedQuestion : McqRender
  | indeterminateAnswer : McqRender
  | answerSelection (options : List String) (correctIdx : Nat) : McqRender
  | answerResults (options : List String) (correctIdx : Nat)
      (markedCorrect : List Nat) : McqRender
deriving DecidableEq

/-- `QuizComponent.render_mcq_quiz` from
`src/components/quiz_component.py`: guard the index, guard falsy
options or answer, resolve the correct index (`none` aborts with an
error), then branch on submission.  In the results view an option is
marked correct exactly when its position equals the resolved index. -/
def render_mcq_quiz (qs : List McqQuestion) (ss : QuizSession) : McqRender :=
  if h : ss.mcq_current_index < qs.length then
    let q := qs.get ⟨ss.mcq_current_index, h⟩
    if q.options = [] || q.correct_answer = "" then .malformedQuestion
    else
      match QuizHelpers.find_correct_option_index q.options q.correct_answer with
      | none => .indeterminateAnswer
      | some ci =>
        if ss.mcq_answer_submitted then
          .answerResults q.options ci
            ((List.range q.options.length).filter (fun i => i = ci))
        else .answerSelection q.options ci
  else .completedQuiz

/-- A render outcome presents the question as answerable exactly when
it shows the selection radio view or the submitted-results view. -/
def presentedAsAnswerable : McqRender → Bool
  | .answerSelection _ _ => true
  | .answerResults _ _ _ => true
  | _ => false

/-!
Specification-level descriptions used to compare the code against the
claims, and helper lemmas.
-/

/-- The index of the first element satisfying a predicate. -/
def firstIdxWhere (p : α → Bool) : List α → Option Nat
  | [] => none
  | a :: t => if p a then some 0 else (firstIdxWhere p t).map (· + 1)

/-- The largest element of a list of naturals (zero when empty). -/
def listMaxNat (l : List Nat) : Nat := l.foldr max 0

/-- Composing the successor shift with an index shift. -/
theorem map_add_shift (o : Option Nat) (i : Nat) :
    Option.map (fun x => x + i) (Option.map (fun x => x + 1) o) =
      Option.map (fun x => x + (i + 1)) o := by
  cases o with
  | none => rfl
  | some v => simp only [Option.map_some']; congr 1; omega

namespace QuizHelpers

theorem strat2_eq_firstIdxWhere (caClean : List Char) :
    ∀ (opts : List (List Char)) (i : Nat),
      strat2 caClean opts i = (firstIdxWhere (strat2Hit caClean) opts).map (· + i) := by
  intro opts
  induction opts with
  | nil => intro i; simp [strat2, firstIdxWhere]
  | cons o t ih =>
    intro i
    rw [strat2]
    by_cases hp : strat2Hit caClean o = true
    · rw [if_pos hp, firstIdxWhere, if_pos hp]
      simp
    · rw [if_neg hp, firstIdxWhere, if_neg hp, ih, map_add_shift]

end QuizHelpers

/-- Claim C1: for a non-empty options list and a correct answer whose
trimmed upper-cased form is one letter between A and Z,
`find_correct_option_index` returns the zero-based alphabet offset of
that letter, with no bounds check against the options length. -/
theorem claim_C1 (options : List String) (correct_answer : String) (c : Char)
    (h1 : options ≠ [])
    (h2 : pyUpper (pyStrip correct_answer.toList) = [c])
    (h3 : 'A' ≤ c) (h4 : c ≤ 'Z') :
    QuizHelpers.find_correct_option_index options correct_answer =
      some (c.toNat - 'A'.toNat) := by
  have hca : correct_answer.data ≠ [] := by
    intro h0
    have h0' : correct_answer.toList = [] := h0
    rw [h0'] at h2
    simp [pyStrip, pyUpper] at h2
  unfold QuizHelpers.find_correct_option_index QuizHelpers.findCore
  rw [if_neg]
  · rw [h2]
    simp [QuizHelpers.letterHit, h3, h4]
  · simp [h1, hca]

/-- Witness for C1: a letter C with four options resolves to index two,
and a letter E with only two options resolves to the out-of-range
index four rather than to none. -/
theorem claim_C1_witness :
    (["w", "x", "y", "z"] : List String) ≠ [] ∧
    QuizHelpers.find_correct_option_index ["w", "x", "y", "z"] "C" = some 2 ∧
    QuizHelpers.find_correct_option_index ["w", "x"] "E" = some 4 ∧ 4 ≥ 2 := by
  refine ⟨by decide, ?_, ?_, by decide⟩
  · have h := claim_C1 ["w", "x", "y", "z"] "C" 'C'
      (by decide) (by decide) (by decide) (by decide)
    exact h.trans (by decide)
  · have h := claim_C1 ["w", "x"] "E" 'E'
      (by decide) (by decide) (by decide) (by decide)
    exact h.trans (by decide)

namespace QuizHelpers

theorem strat3Score_nil (caClean : List Char) : strat3Score caClean [] = 0 := by
  simp [strat3Score, strat3Content, sharedWordCount, pyStrip, pyUpper, stripLabel,
    pyWords, pyWordsAux, List.contains]

theorem listMaxNat_cons (x : Nat) (l : List Nat) :
    listMaxNat (x :: l) = max x (listMaxNat l) := rfl

/-- The strategy-3 loop computes the first index attaining the maximum
score whenever that maximum exceeds the running best score, and
otherwise falls back to the accumulated best (or none for score
zero). -/
theorem strat3_characterization (caClean : List Char) :
    ∀ (opts : List (List Char)) (i : Nat) (b : Option Nat) (s : Nat),
      strat3 caClean opts i b s =
        (if s < listMaxNat (opts.map (strat3Score caClean)) then
          (firstIdxWhere
            (fun o => strat3Score caClean o = listMaxNat (opts.map (strat3Score caClean)))
            opts).map (· + i)
         else if 0 < s then b else none) := by
  intro opts
  induction opts with
  | nil =>
    intro i b s
    simp [strat3, listMaxNat, firstIdxWhere]
  | cons o t ih =>
    intro i b s
    have hcons : listMaxNat ((o :: t).map (strat3Score caClean)) =
        max (strat3Score caClean o) (listMaxNat (t.map (strat3Score caClean))) := rfl
    set so := strat3Score caClean o with hso
    set Mt := listMaxNat (t.map (strat3Score caClean)) with hMt
    rw [strat3]
    by_cases ho : o = []
    · have hso0 : so = 0 := by rw [hso, ho]; exact strat3Score_nil caClean
      rw [if_neg (by simp [ho])]
      rw [ih]
      by_cases hlt : s < Mt
      · have hM : max so Mt = Mt := by rw [Nat.max_def]; split <;> omega
        rw [if_pos hlt, hcons, hM, if_pos hlt]
        rw [firstIdxWhere]
        rw [if_neg (by simp only [decide_eq_true_eq]; omega)]
        rw [map_add_shift]
      · have hM : max so Mt = Mt := by rw [Nat.max_def]; split <;> omega
        rw [if_neg hlt, hcons, hM, if_neg hlt]
    · rw [if_pos ho]
      by_cases hgt : so > s
      · rw [if_pos hgt, ih]
        by_cases hlt : so < Mt
        · have hM : max so Mt = Mt := by rw [Nat.max_def]; split <;> omega
          rw [if_pos hlt, hcons, hM, if_pos (by omega)]
          rw [firstIdxWhere]
          rw [if_neg (by simp only [decide_eq_true_eq]; omega)]
          rw [map_add_shift]
        · have hM : max so Mt = so := by rw [Nat.max_def]; split <;> omega
          rw [if_neg hlt, if_pos (by omega), hcons, hM, if_pos (by omega)]
          rw [firstIdxWhere]
          rw [if_pos (by simp only [decide_eq_true_eq])]
          simp
      · rw [if_neg hgt, ih]
        by_cases hlt : s < Mt
        · have hM : max so Mt = Mt := by rw [Nat.max_def]; split <;> omega
          rw [if_pos hlt, hcons, hM, if_pos hlt]
          rw [firstIdxWhere]
          rw [if_neg (by simp only [decide_eq_true_eq]; omega)]
          rw [map_add_shift]
        · have hmax : ¬ s < max so Mt := by rw [Nat.max_def]; split <;> omega
          rw [if_neg hlt, hcons, if_neg hmax]

end QuizHelpers

/-- The claimed behaviour of strategy 2 as worded by the specification:
the first index at which the cleaned option equals the cleaned answer
or either string contains the other.  The wording mentions no skipping
of empty option strings; this definition exists to be compared with
the source embedding. -/
def specStep2FirstIndex (options : List String) (correct_answer : String) : Option Nat :=
  let caClean := pyUpper (pyStrip correct_answer.toList)
  firstIdxWhere
    (fun o =>
      let content := pyStrip (QuizHelpers.stripLabel (pyUpper (pyStrip o.toList)))
      caClean = content || infixB caClean content || infixB content caClean)
    options

/-- Counterexample to C9 as stated: with an empty first option, the
empty cleaned option content is contained in every answer, so the
claimed first matching index is zero, yet the code skips falsy options
and returns index one. -/
theorem claim_C9_counterexample :
    QuizHelpers.find_correct_option_index ["", "B) Paris"] "Paris" = some 1 ∧
    specStep2FirstIndex ["", "B) Paris"] "Paris" = some 0 ∧ (1 : Nat) ≠ 0 :=
  ⟨by decide, by decide, by decide⟩

/-- Claim C9 (amended): for a non-empty options list, a non-empty
answer to which the single-letter rule does not apply, the matcher
returns the first index whose option is non-empty and whose cleaned
content equals, contains or is contained in the cleaned answer,
whenever such an index exists. -/
theorem claim_C9 (options : List String) (correct_answer : String) (i : Nat)
    (h1 : options ≠ []) (h2 : correct_answer.data ≠ [])
    (h3 : QuizHelpers.letterHit (pyUpper (pyStrip correct_answer.toList)) = none)
    (h4 : firstIdxWhere (QuizHelpers.strat2Hit (pyUpper (pyStrip correct_answer.toList)))
        (options.map String.toList) = some i) :
    QuizHelpers.find_correct_option_index options correct_answer = some i := by
  simp only [QuizHelpers.find_correct_option_index, QuizHelpers.findCore]
  rw [if_neg (by simp [h1, h2])]
  rw [h3, QuizHelpers.strat2_eq_firstIdxWhere, h4]
  simp

/-- Witness for C9: the example of the claim, options A Paris, B
London, C Berlin with answer Berlin, resolves to index two. -/
theorem claim_C9_witness :
    QuizHelpers.find_correct_option_index ["A) Paris", "B) London", "C) Berlin"] "Berlin" =
      some 2 :=
  claim_C9 _ _ 2 (by decide) (by decide) (by decide) (by decide)

/-- Claim C10: when neither the single-letter rule nor the
equality-containment rule fires, the matcher returns the first index
attaining the strictly highest non-zero shared-word score (lowest
index kept on ties), and none when no option shares a word with the
answer. -/
theorem claim_C10 (options : List String) (correct_answer : String)
    (h1 : options ≠ []) (h2 : correct_answer.data ≠ [])
    (h3 : QuizHelpers.letterHit (pyUpper (pyStrip correct_answer.toList)) = none)
    (h4 : QuizHelpers.strat2 (pyUpper (pyStrip correct_answer.toList))
        (options.map String.toList) 0 = none) :
    QuizHelpers.find_correct_option_index options correct_answer =
      (if 0 < listMaxNat ((options.map String.toList).map
            (QuizHelpers.strat3Score (pyUpper (pyStrip correct_answer.toList)))) then
        firstIdxWhere
          (fun o => QuizHelpers.strat3Score (pyUpper (pyStrip correct_answer.toList)) o =
            listMaxNat ((options.map String.toList).map
              (QuizHelpers.strat3Score (pyUpper (pyStrip correct_answer.toList)))))
          (options.map String.toList)
       else none) := by
  simp only [QuizHelpers.find_correct_option_index, QuizHelpers.findCore]
  rw [if_neg (by simp [h1, h2])]
  rw [h3, h4, QuizHelpers.strat3_characterization]
  by_cases hpos : 0 < listMaxNat ((options.map String.toList).map
      (QuizHelpers.strat3Score (pyUpper (pyStrip correct_answer.toList))))
  · rw [if_pos hpos, if_pos hpos]
    simp
  · rw [if_neg hpos, if_neg hpos]
    simp

/-- Witness for C10: a one-shared-word option wins (lowest such index),
and an answer sharing no word with any option yields none. -/
theorem claim_C10_witness :
    QuizHelpers.find_correct_option_index ["A) red cat", "B) blue dog"] "green cat" =
      some 0 ∧
    QuizHelpers.find_correct_option_index ["A) ok", "B) no"] "77" = none := by
  constructor
  · exact (claim_C10 ["A) red cat", "B) blue dog"] "green cat"
      (by decide) (by decide) (by decide) (by decide)).trans (by decide)
  · exact (claim_C10 ["A) ok", "B) no"] "77"
      (by decide) (by decide) (by decide) (by decide)).trans (by decide)

/-- Claim C2 (divergence evidence): a four-option question with correct
answer E resolves to the out-of-range index four, which is not none, so
`render_mcq_quiz` presents the question as answerable (radio selection
before submission, results after), against the requirement that a
correct answer not resolving to an in-range index make the question
unanswerable; no option is marked correct in the results view. -/
theorem claim_C2_bug :
    QuizHelpers.find_correct_option_index ["A) 1", "B) 2", "C) 3", "D) 4"] "E" = some 4 ∧
    (["A) 1", "B) 2", "C) 3", "D) 4"] : List String).length = 4 ∧
    render_mcq_quiz
        [{ question := "Q?", options := ["A) 1", "B) 2", "C) 3", "D) 4"],
           correct_answer := "E", hint := none }]
        { mcq_current_index := 0, mcq_answer_submitted := false, mcq_user_answer := none } =
      .answerSelection ["A) 1", "B) 2", "C) 3", "D) 4"] 4 ∧
    presentedAsAnswerable
      (render_mcq_quiz
        [{ question := "Q?", options := ["A) 1", "B) 2", "C) 3", "D) 4"],
           correct_answer := "E", hint := none }]
        { mcq_current_index := 0, mcq_answer_submitted := false, mcq_user_answer := none }) =
      true ∧
    render_mcq_quiz
        [{ question := "Q?", options := ["A) 1", "B) 2", "C) 3", "D) 4"],
           correct_answer := "E", hint := none }]
        { mcq_current_index := 0, mcq_answer_submitted := true, mcq_user_answer := some "A) 1" } =
      .answerResults ["A) 1", "B) 2", "C) 3", "D) 4"] 4 [] :=
  ⟨by decide, by decide, by decide, by decide, by decide⟩

/-- Claim C3: the `AIService` class defines no
`parse_flowchart_description` method, so `_process_and_store_notes`
raises on every notes document and `_handle_processing` always takes
the error path: an error message is produced, the final state is a
reset of the session (with the processing flag cleared), and the notes
history is never extended. -/
theorem claim_C3 (aiTopic tts : String → Option String) (notes_text : String)
    (st : AppState) (env : PipelineEnv) (st' : AppState) :
    AIService.methodNames.contains "parse_flowchart_description" = false ∧
    (∃ stP, _process_and_store_notes aiTopic tts notes_text st = .error stP ∧
      stP.notes_history = st.notes_history) ∧
    (_handle_processing env st').2.isSome = true ∧
    (_handle_processing env st').1.notes_history = st'.notes_history ∧
    (_handle_processing env st').1.processing = false ∧
    (∃ stP, (_handle_processing env st').1 = { reset_session stP with processing := false } ∧
      stP.notes_history = st'.notes_history) := by
  refine ⟨rfl, ⟨_, rfl, rfl⟩, ?_⟩
  unfold _handle_processing
  cases h1 : env.extract_audio st'.video_url with
  | none => exact ⟨rfl, rfl, rfl, st', rfl, rfl⟩
  | some audio_path =>
    dsimp only
    cases h2 : env.transcribe_audio audio_path with
    | none => exact ⟨rfl, rfl, rfl, st', rfl, rfl⟩
    | some transcript =>
      dsimp only
      cases h3 : env.generate_notes transcript with
      | none => exact ⟨rfl, rfl, rfl, st', rfl, rfl⟩
      | some notes_text2 =>
        dsimp only
        exact ⟨rfl, rfl, rfl, _, rfl, rfl⟩

/-- Claim C6: `reset_session` leaves the notes history untouched; the
history block inserts a new entry at the front exactly when no stored
entry carries the session video URL and otherwise changes nothing;
stored entries are preserved verbatim; pairwise-distinct URLs remain
pairwise distinct; and every run of `_handle_processing` (which, as
wired, always fails) leaves the stored history unchanged. -/
theorem claim_C6 (st : AppState) (e : HistoryEntry) (env : PipelineEnv) (st' : AppState) :
    (reset_session st).notes_history = st.notes_history ∧
    (st.notes_history.any (fun en => en.video_url = st.video_url) = true →
      insertHistoryStep st = st) ∧
    (st.notes_history.any (fun en => en.video_url = st.video_url) = false →
      (insertHistoryStep st).notes_history = mkHistoryEntry st :: st.notes_history) ∧
    (e ∈ st.notes_history → e ∈ (insertHistoryStep st).notes_history) ∧
    (st.notes_history.Pairwise (fun a b => a.video_url ≠ b.video_url) →
      (insertHistoryStep st).notes_history.Pairwise (fun a b => a.video_url ≠ b.video_url)) ∧
    (_handle_processing env st').1.notes_history = st'.notes_history := by
  refine ⟨rfl, ?_, ?_, ?_, ?_, ?_⟩
  · intro h
    simp only [insertHistoryStep, h, if_true]
  · intro h
    simp only [insertHistoryStep, h, Bool.false_eq_true, if_false]
  · intro he
    unfold insertHistoryStep
    split
    · exact he
    · exact List.mem_cons_of_mem _ he
  · intro hp
    unfold insertHistoryStep
    split
    · exact hp
    · rename_i hany
      rw [Bool.not_eq_true, List.any_eq_false] at hany
      refine List.Pairwise.cons ?_ hp
      intro b hb
      have hb' := hany b hb
      simp only [decide_eq_true_eq] at hb'
      simp [mkHistoryEntry]
      intro hEq
      exact hb' hEq.symm
  · unfold _handle_processing
    cases h1 : env.extract_audio st'.video_url with
    | none => rfl
    | some audio_path =>
      dsimp only
      cases h2 : env.transcribe_audio audio_path with
      | none => rfl
      | some transcript =>
        dsimp only
        cases h3 : env.generate_notes transcript with
        | none => rfl
        | some notes_text2 => rfl

/-- Witness for C6: inserting into an empty history with a fresh URL
places the new entry at the front. -/
theorem claim_C6_witness :
    (insertHistoryStep { video_url := "https://youtube.com/watch?v=a" }).notes_history =
      [mkHistoryEntry { video_url := "https://youtube.com/watch?v=a" }] := by
  have h := (claim_C6 { video_url := "https://youtube.com/watch?v=a" }
      (mkHistoryEntry { video_url := "https://youtube.com/watch?v=a" })
      ⟨fun _ => none, fun _ => none, fun _ => none, fun _ => none, fun _ => none⟩
      { video_url := "" }).2.2.1
  exact h rfl

/-- Counterexample to C4 as stated: a document whose Summary section is
the last section (no later double-hash heading) yields no match, so the
body is not captured, and `extract_topic_from_summary` itself returns
the fallback topic string rather than none. -/
theorem claim_C4_counterexample :
    searchSummary "## Summary\nGravity basics".toList = none ∧
    AIService.extract_topic_from_summary (fun s => some s) "## Summary\nGravity basics" =
      some AIService.fallbackTopic :=
  ⟨by decide, by decide⟩

/-- Claim C4 (amended): the summary pattern requires a later
double-hash heading (there is no end-of-document alternative) and its
lazy gap consumes the line after the heading, so the captured body
starts at the second line following the heading; on no match or a
whitespace-only body the function itself returns the fixed fallback
topic string, and otherwise the generative call receives the stripped
body. -/
theorem claim_C4 :
    (∀ (notes : String) (aiTopic : String → Option String),
      searchSummary notes.toList = none →
        AIService.extract_topic_from_summary aiTopic notes = some AIService.fallbackTopic) ∧
    (∀ (notes : String) (aiTopic : String → Option String) (cap : List Char),
      searchSummary notes.toList = some cap → pyStrip cap = [] →
        AIService.extract_topic_from_summary aiTopic notes = some AIService.fallbackTopic) ∧
    (∀ (notes : String) (aiTopic : String → Option String) (cap : List Char),
      searchSummary notes.toList = some cap → pyStrip cap ≠ [] →
        AIService.extract_topic_from_summary aiTopic notes = aiTopic (String.mk (pyStrip cap))) ∧
    searchSummary "## Detailed Summary\nLine1\nLine2\n## Next".toList = some "Line2\n".toList := by
  refine ⟨?_, ?_, ?_, by decide⟩
  · intro notes aiTopic h
    unfold AIService.extract_topic_from_summary
    rw [h]
  · intro notes aiTopic cap h hs
    unfold AIService.extract_topic_from_summary
    rw [h]
    dsimp only
    rw [if_pos hs]
  · intro notes aiTopic cap h hs
    unfold AIService.extract_topic_from_summary
    rw [h]
    dsimp only
    rw [if_neg hs]

/-- Witness for C4: a document with no heading gives the fallback. -/
theorem claim_C4_witness :
    AIService.extract_topic_from_summary (fun _ => none) "no heading here" =
      some AIService.fallbackTopic :=
  claim_C4.1 "no heading here" (fun _ => none) (by decide)

/-- Interpolating a plain key into a pattern leaves the
well-formedness scan where it was. -/
theorem regexScanOk_plain_append (key : List Char) (rest : List Char)
    (h : regexPlainKey key = true) :
    regexScanOk (key ++ rest) 0 0 false = regexScanOk rest 0 0 false := by
  induction key with
  | nil => rfl
  | cons c t ih =>
    simp only [regexPlainKey, List.all_cons, Bool.and_eq_true, Bool.not_eq_true'] at h
    obtain ⟨hc, ht⟩ := h
    have hb : ¬ c = '\\' := by intro e; subst e; exact absurd hc (by decide)
    have hl : ¬ c = '[' := by intro e; subst e; exact absurd hc (by decide)
    have hp : ¬ c = '(' := by intro e; subst e; exact absurd hc (by decide)
    have hr : ¬ c = ')' := by intro e; subst e; exact absurd hc (by decide)
    rw [List.cons_append, regexScanOk]
    rw [if_neg (by simp), if_neg hb, if_pos rfl, if_neg hl, if_neg hp, if_neg hr]
    exact ih ht

/-- The assembled pattern of a plain key passes the compilation scan. -/
theorem jsonBlockPattern_plain_ok (key : List Char) (h : regexPlainKey key = true) :
    regexScanOk (jsonBlockPattern key) 0 0 false = true := by
  unfold jsonBlockPattern
  have hpre : ∀ X, regexScanOk ("##\\s*".toList ++ X) 0 0 false = regexScanOk X 0 0 false :=
    fun X => rfl
  rw [hpre, regexScanOk_plain_append key _ h]
  decide

/-- Counterexample to C5 as stated: the section key is interpolated
into the pattern source, so the key of a single opening parenthesis
leaves an unterminated group, pattern compilation raises, and nothing
catches it (the handler guards only the decode step): the function
raises to its caller. -/
theorem claim_C5_counterexample :
    AIService.parse_json_from_notes "" "(" = .error "re.error: unbalanced pattern" := by
  unfold AIService.parse_json_from_notes
  rw [if_neg (by decide)]

/-- Claim C5 (amended): for every document and every section key free
of regex-special characters (the application only ever passes the two
plain section headings), `parse_json_from_notes` never raises: it
returns either the empty sequence (missing heading or fence, or decode
failure) or exactly the decoded value of the captured block; the
flashcard example decodes to one record with its two fields, and a
trailing comma yields the empty sequence instead of an error.  A key
containing pattern syntax is interpolated into the pattern and can
make compilation itself raise. -/
theorem claim_C5 :
    (∀ (notes key : String), regexPlainKey key.toList = true →
      AIService.parse_json_from_notes notes key = .ok (Json.arr []) ∨
      ∃ cap, searchJsonBlock key.toList notes.toList = some cap ∧
        ∃ v, json_loads (String.mk cap) = .ok v ∧
          AIService.parse_json_from_notes notes key = .ok v) ∧
    AIService.parse_json_from_notes
        "## Flashcard Review\n\x60\x60\x60json\n[\x7b\"question\": \"Q1?\", \"answer\": \"A1\"\x7d]\n\x60\x60\x60"
        "Flashcard Review" =
      .ok (Json.arr [Json.obj [("question", Json.str "Q1?"), ("answer", Json.str "A1")]]) ∧
    AIService.parse_json_from_notes
        "## Flashcard Review\n\x60\x60\x60json\n[\x7b\"question\": \"Q1?\", \"answer\": \"A1\"\x7d,]\n\x60\x60\x60"
        "Flashcard Review" =
      .ok (Json.arr []) := by
  refine ⟨?_, by rfl, by rfl⟩
  intro notes key hplain
  unfold AIService.parse_json_from_notes
  rw [if_pos (jsonBlockPattern_plain_ok key.toList hplain)]
  cases h : searchJsonBlock key.toList notes.toList with
  | none => exact Or.inl rfl
  | some cap =>
    dsimp only
    cases hj : json_loads (String.mk cap) with
    | error e => exact Or.inl rfl
    | ok v => exact Or.inr ⟨cap, rfl, v, hj, rfl⟩

/-- Witness for C5: the flashcard section key is plain, and on a
document with no heading the amended statement resolves to the
empty-sequence branch. -/
theorem claim_C5_witness :
    regexPlainKey "Flashcard Review".toList = true ∧
    (AIService.parse_json_from_notes "no heading" "Flashcard Review" = .ok (Json.arr []) ∨
     ∃ cap, searchJsonBlock "Flashcard Review".toList "no heading".toList = some cap ∧
       ∃ v, json_loads (String.mk cap) = .ok v ∧
         AIService.parse_json_from_notes "no heading" "Flashcard Review" = .ok v) :=
  ⟨by decide, claim_C5.1 "no heading" "Flashcard Review" (by decide)⟩

namespace TextProcessor

theorem replaceFirstBrace_wrap (repl content : List Char) :
    replaceFirstBrace repl (wrapDigraph content) =
      "digraph G ".toList ++ (repl ++ (' ' :: (content ++ " \x7d".toList))) := rfl

/-- A list without an opening brace is left unchanged by the
replacement. -/
theorem replaceFirstBrace_no_brace (repl : List Char) :
    ∀ l : List Char, '\x7b' ∉ l → replaceFirstBrace repl l = l := by
  intro l
  induction l with
  | nil => intro _; rfl
  | cons c t ih =>
    intro hm
    rw [List.mem_cons, not_or] at hm
    rw [replaceFirstBrace, if_neg (fun e => hm.1 e.symm), ih hm.2]

/-- The replacement rewrites exactly the first opening brace and keeps
everything before and after it verbatim. -/
theorem replaceFirstBrace_split (repl : List Char) :
    ∀ pre post : List Char, '\x7b' ∉ pre →
      replaceFirstBrace repl (pre ++ '\x7b' :: post) = pre ++ (repl ++ post) := by
  intro pre
  induction pre with
  | nil =>
    intro post _
    rw [List.nil_append, replaceFirstBrace, if_pos rfl, List.nil_append]
  | cons c t ih =>
    intro post hm
    rw [List.mem_cons, not_or] at hm
    rw [List.cons_append, replaceFirstBrace, if_neg (fun e => hm.1 e.symm),
      ih post hm.2, List.cons_append]

/-- Claim C7: `parse_graphviz` returns none exactly when the notes
contain no complete fenced dot block; a captured body not already
starting with the word digraph is wrapped in a directed-graph root,
while one already starting with it is kept unwrapped and only receives
the injection; the style preamble is injected right after the first
opening brace with everything before and after it preserved verbatim
(a body with no brace is left unchanged); the claimed example produces
the expected styled digraph. -/
theorem claim_C7 :
    (∀ notes : String, searchDot notes.toList = none ↔ parse_graphviz notes = none) ∧
    (∀ (notes : String) (cap : List Char),
      searchDot notes.toList = some cap →
      prefixB "digraph".toList (pyStrip cap) = false →
      parse_graphviz notes =
        some (String.mk ("digraph G \x7b ".toList ++
          (gvStyling.toList ++ (' ' :: (pyStrip cap ++ " \x7d".toList)))))) ∧
    (∀ (notes : String) (cap : List Char),
      searchDot notes.toList = some cap →
      prefixB "digraph".toList (pyStrip cap) = true →
      parse_graphviz notes =
        some (String.mk
          (replaceFirstBrace ('\x7b' :: ' ' :: gvStyling.toList) (pyStrip cap)))) ∧
    (∀ pre post : List Char, '\x7b' ∉ pre →
      replaceFirstBrace ('\x7b' :: ' ' :: gvStyling.toList) (pre ++ '\x7b' :: post) =
        pre ++ ('\x7b' :: ' ' :: (gvStyling.toList ++ post))) ∧
    (∀ l : List Char, '\x7b' ∉ l →
      replaceFirstBrace ('\x7b' :: ' ' :: gvStyling.toList) l = l) ∧
    parse_graphviz "\x60\x60\x60dot\nnode1 -> node2;\n\x60\x60\x60" =
      some ("digraph G \x7b " ++ gvStyling ++ " node1 -> node2; \x7d") := by
  refine ⟨?_, ?_, ?_,
    replaceFirstBrace_split ('\x7b' :: ' ' :: gvStyling.toList),
    replaceFirstBrace_no_brace ('\x7b' :: ' ' :: gvStyling.toList), by rfl⟩
  · intro notes
    unfold parse_graphviz
    cases h : searchDot notes.toList with
    | none => simp
    | some cap => simp
  · intro notes cap h hpre
    unfold parse_graphviz
    rw [h]
    dsimp only
    rw [if_neg (by rw [Bool.not_eq_true]; exact hpre)]
    rw [replaceFirstBrace_wrap]
    rfl
  · intro notes cap h hpre
    unfold parse_graphviz
    rw [h]
    dsimp only
    rw [if_pos hpre]

/-- Witness for C7: the fenced body of the claimed example is wrapped
and styled as the general statement describes, and a body already
declaring a digraph root is kept unwrapped with the preamble injected
into its own first brace. -/
theorem claim_C7_witness :
    parse_graphviz "\x60\x60\x60dot\nnode1 -> node2;\n\x60\x60\x60" =
      some (String.mk ("digraph G \x7b ".toList ++
        (gvStyling.toList ++ (' ' :: (pyStrip "node1 -> node2;".toList ++ " \x7d".toList))))) ∧
    parse_graphviz "\x60\x60\x60dot\ndigraph H \x7b a -> b; \x7d\n\x60\x60\x60" =
      some (String.mk (replaceFirstBrace ('\x7b' :: ' ' :: gvStyling.toList)
        (pyStrip "digraph H \x7b a -> b; \x7d".toList))) :=
  ⟨claim_C7.2.1 "\x60\x60\x60dot\nnode1 -> node2;\n\x60\x60\x60" "node1 -> node2;".toList
      (by decide) (by decide),
   claim_C7.2.2.1 "\x60\x60\x60dot\ndigraph H \x7b a -> b; \x7d\n\x60\x60\x60"
      "digraph H \x7b a -> b; \x7d".toList (by decide) (by decide)⟩

theorem colorFor_mem (h : String → Int) (kw : String) : colorFor h kw ∈ hlColors := by
  unfold colorFor
  have h0 : 0 ≤ (h kw) % 6 := Int.emod_nonneg _ (by decide)
  have h6 : (h kw) % 6 < 6 := Int.emod_lt_of_pos _ (by decide)
  have hn : ((h kw) % 6).toNat < 6 := by omega
  interval_cases hi : ((h kw) % 6).toNat <;> decide

/-- Claim C8: for any fixed process-wide hash function the highlighter
is deterministic (equal inputs give byte-identical outputs); the
two-marker example is rewritten to exactly two styled spans carrying
the original inner texts, each coloured by the hash of its inner text
modulo six; and every selected colour belongs to the fixed six-colour
palette. -/
theorem claim_C8 :
    (∀ (h : String → Int) (t₁ t₂ : String), t₁ = t₂ →
      highlight_keywords h t₁ = highlight_keywords h t₂) ∧
    (∀ h : String → Int,
      highlight_keywords h "@@gravity@@ pulls objects @@down@@." =
        mkSpan (colorFor h "gravity") "gravity" ++ " pulls objects " ++
          mkSpan (colorFor h "down") "down" ++ ".") ∧
    (∀ (h : String → Int) (kw : String), colorFor h kw ∈ hlColors) := by
  refine ⟨?_, ?_, colorFor_mem⟩
  · intro h t₁ t₂ ht
    rw [ht]
  · intro h
    have hL : highlight_keywords h "@@gravity@@ pulls objects @@down@@." =
        String.mk ((mkSpan (colorFor h "gravity") "gravity").data ++
          (" pulls objects ".data ++ ((mkSpan (colorFor h "down") "down").data ++ ".".data))) := rfl
    have hR : mkSpan (colorFor h "gravity") "gravity" ++ " pulls objects " ++
        mkSpan (colorFor h "down") "down" ++ "." =
        String.mk ((((mkSpan (colorFor h "gravity") "gravity").data ++
          " pulls objects ".data) ++ (mkSpan (colorFor h "down") "down").data) ++ ".".data) := rfl
    rw [hL, hR]
    congr 1
    simp [List.append_assoc]

/-- Witness for C8: determinism and the two-span structure at a fixed
hash function. -/
theorem claim_C8_witness :
    highlight_keywords (fun _ => 0) "@@gravity@@ pulls objects @@down@@." =
      highlight_keywords (fun _ => 0) "@@gravity@@ pulls objects @@down@@." ∧
    highlight_keywords (fun _ => 0) "@@gravity@@ pulls objects @@down@@." =
      mkSpan (colorFor (fun _ => 0) "gravity") "gravity" ++ " pulls objects " ++
        mkSpan (colorFor (fun _ => 0) "down") "down" ++ "." :=
  ⟨claim_C8.1 (fun _ => 0) _ _ rfl, claim_C8.2.1 (fun _ => 0)⟩

end TextProcessor

end EduEase
